import Mathlib

/-!
Verification of the job-tracker-automation repository.

The repository consists of two sequential Node.js batch scripts:

* the Reply Classifier (`main` in the first script): fetches Trello cards of
  the "Sent CV" list and unread Gmail messages, matches each email to a card
  by `threadId:`/`domain:` tags in the card description, classifies the email
  with an AI call, and moves the matched card to a per-label target list;
* the Job Status Checker (second script): for each card of the "Sent CV"
  list, finds a link attachment, asks an AI call whether the job posting is
  still live, and moves the card to a "Job Deleted" list when it is not.

This file gives a shallow embedding of the data model and of the pure
decision logic of both scripts, with the external world (Gmail, Trello, the
Groq API) supplied as explicit inputs: every fetch result, AI response and
move success/failure that the scripts observe is a parameter, and every
mutation request the scripts issue (card moves, mark-as-read) is recorded in
the resulting state.  String primitives (`includes`, `toLowerCase`,
`toUpperCase`, `trim`, `split`, the one regular expression the code builds)
are modelled character-list by character-list after their JavaScript
semantics (ASCII case mapping).
-/

/-! ### Character and string primitives -/

/-- The character class of JavaScript's `\s` (also the set trimmed by
`String.prototype.trim`): ASCII whitespace, NBSP and the Unicode space
separators. -/
def isSpaceChar (c : Char) : Bool :=
  c = ' ' || ('\t' ≤ c && c ≤ '\u000D') || c = '\u00A0' || c = '\u1680' ||
  ('\u2000' ≤ c && c ≤ '\u200A') || c = '\u2028' || c = '\u2029' ||
  c = '\u202F' || c = '\u205F' || c = '\u3000' || c = '\uFEFF'

/-- Match a literal character sequence `p` at the head of `s`; on success
return the rest of `s`. -/
def matchLit : List Char → List Char → Option (List Char)
  | [], s => some s
  | _ :: _, [] => none
  | p :: ps, c :: cs => if p = c then matchLit ps cs else none

/-- Run a Boolean test on every suffix of the list (leftmost success wins):
the unanchored search underlying both `String.prototype.includes` and
`RegExp.prototype.test`. -/
def scanTail (f : List Char → Bool) : List Char → Bool
  | [] => f []
  | c :: cs => f (c :: cs) || scanTail f cs

/-- JavaScript `hay.includes(needle)`: substring containment. -/
def strIncludes (hay needle : String) : Bool :=
  scanTail (fun s => (matchLit needle.data s).isSome) hay.data

/-- JavaScript `toLowerCase` (ASCII range, which is all the scripts rely on). -/
def jsToLower (s : String) : String := String.mk (s.data.map Char.toLower)

/-- JavaScript `toUpperCase` (ASCII range). -/
def jsToUpper (s : String) : String := String.mk (s.data.map Char.toUpper)

/-- JavaScript `trim`: drop leading and trailing whitespace. -/
def jsTrim (s : String) : String :=
  String.mk (((s.data.dropWhile isSpaceChar).reverse.dropWhile isSpaceChar).reverse)

/-- JavaScript `s.split(sep)` for a one-character separator, as used by
`fromEmail.split('@')`. -/
def splitChar (sep : Char) : List Char → List (List Char)
  | [] => [[]]
  | c :: cs =>
    let rest := splitChar sep cs
    if c = sep then [] :: rest
    else
      match rest with
      | [] => [[c]]
      | r :: rs => (c :: r) :: rs

/-! ### The domain regular expression

The Reply Classifier builds, from the (already lowercased) sender domain,
the pattern `domain:\s*(<domain>|\[<domain>\])` with the `i` flag, dots of
the domain escaped (`domain.replace(/\./g, '\\.')`).  The matcher below
implements exactly this pattern family: the literal `domain:`, then `\s*`,
then the domain or the domain in square brackets, searched unanchored and
case-insensitively (both sides lowercased).  It treats every character of
the domain as a literal; this coincides with the JavaScript regex whenever
the domain contains no regex metacharacter other than the escaped dots
(`domainSafeChar` below names that guard). -/

/-- Characters on which dot-escaping makes the built regex treat the whole
domain as a literal: letters, digits, dots and hyphens. -/
def domainSafeChar (c : Char) : Bool :=
  c.isAlphanum || c = '.' || c = '-'

/-- The alternation `(<dom>|\[<dom>\])`. -/
def matchBody (dom s : List Char) : Bool :=
  (matchLit dom s).isSome || (matchLit ('[' :: (dom ++ [']'])) s).isSome

/-- `\s*` followed by the alternation (with backtracking: any number of
leading whitespace characters may be consumed). -/
def matchWsBody (dom : List Char) : List Char → Bool
  | [] => matchBody dom []
  | c :: cs => matchBody dom (c :: cs) || (isSpaceChar c && matchWsBody dom cs)

/-- The anchored pattern `domain:\s*(<dom>|\[<dom>\])` at the head of `s`. -/
def matchAt (dom s : List Char) : Bool :=
  match matchLit "domain:".data s with
  | none => false
  | some rest => matchWsBody dom rest

/-- The unanchored pattern over a whole character list. -/
def regexTest (dom : List Char) (s : List Char) : Bool :=
  scanTail (matchAt dom) s

/-- `domainRegex.test(desc)` for the regex the code builds from `domain`. -/
def domainRegexTest (domain desc : String) : Bool :=
  regexTest (jsToLower domain).data (jsToLower desc).data

/-- Declarative reading of the pattern `domain:\s*(<dom>|\[<dom>\])`
occurring somewhere in `s`: used to relate the executable matcher to the
specification's wording. -/
def DomainPatternSpec (dom s : List Char) : Prop :=
  ∃ pre ws body post,
    s = pre ++ ("domain:".data ++ (ws ++ (body ++ post))) ∧
    (∀ c ∈ ws, isSpaceChar c = true) ∧
    (body = dom ∨ body = '[' :: (dom ++ [']']))

/-! ### Data model -/

/-- A Trello card as the scripts read it: identifier, name and the free-text
description used as a `threadId:`/`domain:` tag store. -/
structure TrelloCard where
  id : String
  name : String
  desc : String
deriving DecidableEq

/-- An unread Gmail message after metadata extraction: the scripts read the
thread id, the From/To/Subject headers and the snippet.  `threadId` is
`none` when the field is absent (JavaScript `undefined`). -/
structure EmailMessage where
  id : String
  threadId : Option String
  subject : String
  fromHeader : String
  toHeader : String
  snippet : String
deriving DecidableEq

/-- Outcome of one chat-completion call against the AI service, as the
calling code can observe it: client never initialized, the call threw, or a
response with the given message content. -/
inductive AIOutcome where
  | noClient : AIOutcome
  | failure : AIOutcome
  | response : String → AIOutcome
deriving DecidableEq

/-- JavaScript truthiness of an optional environment/string value:
`undefined` and the empty string are falsy. -/
def jsTruthy (o : Option String) : Bool :=
  match o with
  | none => false
  | some s => decide (s ≠ "")

/-- The environment variables read by the Reply Classifier script; each may
be absent. -/
structure Config where
  TRELLO_API_KEY : Option String
  TRELLO_TOKEN : Option String
  TRELLO_SENT_CV_LIST_ID : Option String
  TRELLO_ESTABLISHED_CONTACT_LIST_ID : Option String
  TRELLO_INITIAL_INTERVIEW_LIST_ID : Option String
  TRELLO_CODING_INTERVIEW_LIST_ID : Option String
  TRELLO_ARCHITECTURE_INTERVIEW_LIST_ID : Option String
  TRELLO_MANAGEMENT_AND_HR_LIST_ID : Option String
  TRELLO_DROPPED_INITIAL_LIST_ID : Option String
  GROQ_API_KEY : Option String
  NTFY_TOPIC : Option String
  MY_EMAIL : Option String
deriving DecidableEq

/-! ### Script 1: the Reply Classifier -/

/-- The fixed category set of `classifyEmailWithAI`. -/
def categories : List String :=
  ["INITIAL_INTERVIEW", "CODING_CHALLENGE", "TECHNICAL_INTERVIEW",
   "HR_INTERVIEW", "REJECTION", "OFFER", "OTHER_REPLY"]

/-- `classifyEmailWithAI(subject, snippet)`: with no client it returns
`"OTHER_REPLY"`; a thrown service call is caught and returns
`"OTHER_REPLY"`; otherwise the response content is trimmed and uppercased
and returned when it is a recognized category, else `"OTHER_REPLY"`.
`subject` and `snippet` only feed the prompt, so the result depends only on
the call outcome. -/
def classifyEmailWithAI (subject snippet : String) (outcome : AIOutcome) : String :=
  match outcome with
  | .noClient => "OTHER_REPLY"
  | .failure => "OTHER_REPLY"
  | .response content =>
    let classification := jsToUpper (jsTrim content)
    if classification ∈ categories then classification else "OTHER_REPLY"

/-- `fromHeader.match(/<([^>]+)>/)?.[1]`: the content of the first
angle-bracket group (nonempty, free of `>`), scanning start positions left
to right as the regex engine does. -/
def angleCapture : List Char → Option (List Char)
  | [] => none
  | c :: rest =>
    if c = '<' then
      let run := rest.takeWhile (fun ch => ch ≠ '>')
      if run ≠ [] ∧ rest.dropWhile (fun ch => ch ≠ '>') ≠ [] then some run
      else angleCapture rest
    else angleCapture rest

/-- `fromHeader.match(/<([^>]+)>/)?.[1] || fromHeader.trim()`. -/
def extractFromEmail (fromHeader : String) : String :=
  match angleCapture fromHeader.data with
  | some cap => String.mk cap
  | none => jsTrim fromHeader

/-- `fromEmail.includes('@') ? fromEmail.split('@')[1].toLowerCase() : null`. -/
def extractDomain (fromEmail : String) : Option String :=
  if strIncludes fromEmail "@" then
    some (jsToLower (String.mk ((splitChar '@' fromEmail.data).getD 1 [])))
  else none

/-- The predicate of the thread-id lookup:
`card.desc && card.desc.includes(threadIdToMatch)`. -/
def threadIdPred (threadIdToMatch : String) (card : TrelloCard) : Bool :=
  decide (card.desc ≠ "") && strIncludes card.desc threadIdToMatch

/-- `trelloCards.find(card => card.desc && card.desc.includes('threadId: ' + id))`. -/
def findThreadMatch (emailThreadId : String) (cards : List TrelloCard) : Option TrelloCard :=
  cards.find? (threadIdPred ("threadId: " ++ emailThreadId))

/-- The predicate of the domain lookup:
`card.desc && domainRegex.test(card.desc)`. -/
def domainPred (domain : String) (card : TrelloCard) : Bool :=
  decide (card.desc ≠ "") && domainRegexTest domain card.desc

/-- `trelloCards.find(card => card.desc && domainRegex.test(card.desc))`. -/
def findDomainMatch (domain : String) (cards : List TrelloCard) : Option TrelloCard :=
  cards.find? (domainPred domain)

/-- The card-matching stage of the per-email loop: a thread-id lookup when
the email has a truthy thread id, then — only when that produced nothing —
a domain lookup when the sender domain is truthy. -/
def findMatchingCard (emailThreadId : Option String) (domain : Option String)
    (cards : List TrelloCard) : Option TrelloCard :=
  match (if jsTruthy emailThreadId
         then findThreadMatch (emailThreadId.getD "") cards
         else none) with
  | some c => some c
  | none =>
    if jsTruthy domain then findDomainMatch (domain.getD "") cards else none

/-- The `switch (classificationLabel)` mapping a label to the configured
target list id (an absent environment value leaves it `null`) and the
display name of the target list. -/
def labelTarget (cfg : Config) (label : String) : Option String × String :=
  if label = "INITIAL_INTERVIEW" then (cfg.TRELLO_INITIAL_INTERVIEW_LIST_ID, "Initial Interview")
  else if label = "CODING_CHALLENGE" then (cfg.TRELLO_CODING_INTERVIEW_LIST_ID, "Coding Interview")
  else if label = "TECHNICAL_INTERVIEW" then (cfg.TRELLO_ARCHITECTURE_INTERVIEW_LIST_ID, "Architecture Interview")
  else if label = "HR_INTERVIEW" then (cfg.TRELLO_MANAGEMENT_AND_HR_LIST_ID, "Management and HR")
  else if label = "REJECTION" then (cfg.TRELLO_DROPPED_INITIAL_LIST_ID, "Dropped Initial")
  else if label = "OTHER_REPLY" then (cfg.TRELLO_ESTABLISHED_CONTACT_LIST_ID, "Established Contact")
  else (none, "Unknown List")

/-- One entry of `movedCardsLog`. -/
structure MovedLogEntry where
  name : String
  list : String
  subject : String
deriving DecidableEq

/-- One card-move request issued to Trello (`PUT /1/cards/<id>`), with the
requested destination list and whether the request succeeded. -/
structure MoveAttempt where
  cardId : String
  listId : String
  ok : Bool
deriving DecidableEq

/-- The mutable state of one Reply Classifier run: the in-memory candidate
card set, the log and failure counter of the script, plus the record of the
mutation requests the run has issued (card moves, mark-as-read) and of the
classification calls made. -/
structure RunState where
  trelloCards : List TrelloCard
  movedCardsLog : List MovedLogEntry
  cardsFailed : Nat
  readAttempts : List String
  moveAttempts : List MoveAttempt
  aiCalls : Nat
deriving DecidableEq

/-- `trelloCards = trelloCards.filter(card => card.id !== matchingCard.id)`. -/
def removeCard (cards : List TrelloCard) (cardId : String) : List TrelloCard :=
  cards.filter (fun c => c.id ≠ cardId)

/-- The per-email externals of one loop iteration: whether the metadata
fetch succeeded (a failure hits `continue`), the AI call outcome, and
whether the Trello move request succeeds. -/
structure EmailEnv where
  fetchOk : Bool
  aiOutcome : AIOutcome
  moveOk : Bool
deriving DecidableEq

/-- One iteration of the Reply Classifier's per-message loop (lines 202-285
of the script), for a present `MY_EMAIL` value `yourEmailAddress`: skip the
email when its metadata fetch failed or its To header does not contain the
recipient address (case-insensitively); otherwise match a card by thread id
then domain; on a match classify the email and, when the label has a truthy
target list id, issue the move request — on success also record the
mark-as-read request and remove the card from the candidate set, on failure
only count the failure. -/
def processEmail (cfg : Config) (yourEmailAddress : String) (st : RunState)
    (msg : EmailMessage) (env : EmailEnv) : RunState :=
  if env.fetchOk = false then st
  else if strIncludes (jsToLower msg.toHeader) (jsToLower yourEmailAddress) = false then st
  else
    let fromEmail := extractFromEmail msg.fromHeader
    let domain := extractDomain fromEmail
    match findMatchingCard msg.threadId domain st.trelloCards with
    | none => st
    | some matchingCard =>
      let classificationLabel := classifyEmailWithAI msg.subject msg.snippet env.aiOutcome
      let target := labelTarget cfg classificationLabel
      if jsTruthy target.1 then
        let targetListId := target.1.getD ""
        if env.moveOk then
          { st with
            trelloCards := removeCard st.trelloCards matchingCard.id,
            movedCardsLog := st.movedCardsLog ++ [⟨matchingCard.name, target.2, msg.subject⟩],
            readAttempts := st.readAttempts ++ [msg.id],
            moveAttempts := st.moveAttempts ++ [⟨matchingCard.id, targetListId, true⟩],
            aiCalls := st.aiCalls + 1 }
        else
          { st with
            cardsFailed := st.cardsFailed + 1,
            moveAttempts := st.moveAttempts ++ [⟨matchingCard.id, targetListId, false⟩],
            aiCalls := st.aiCalls + 1 }
      else
        { st with aiCalls := st.aiCalls + 1 }

/-- The state at the start of the loop: the fetched candidate cards, no log
entries, no failures, no requests issued. -/
def initState (cards : List TrelloCard) : RunState :=
  { trelloCards := cards, movedCardsLog := [], cardsFailed := 0,
    readAttempts := [], moveAttempts := [], aiCalls := 0 }

/-- The whole per-message loop. -/
def runEmails (cfg : Config) (yourEmailAddress : String) (st : RunState)
    (emails : List (EmailMessage × EmailEnv)) : RunState :=
  emails.foldl (fun s p => processEmail cfg yourEmailAddress s p.1 p.2) st

/-- The configuration guard of the Reply Classifier (line 158): only the
Trello key, token and source list id are checked. -/
def script1ConfigOk (cfg : Config) : Bool :=
  jsTruthy cfg.TRELLO_API_KEY && jsTruthy cfg.TRELLO_TOKEN &&
  jsTruthy cfg.TRELLO_SENT_CV_LIST_ID

/-- Outcome of one Reply Classifier run (for runs whose Gmail/Trello fetches
succeed, which is where the interesting logic lives): the early
configuration abort (after an attempted error notification), a normal
completion with the final loop state, or a crash reaching the top-level
handler. -/
inductive Script1Outcome where
  | configError : Script1Outcome
  | ok : RunState → Script1Outcome
  | crashed : Script1Outcome
deriving DecidableEq

/-- A Reply Classifier run, given the fetched cards and unread messages:
abort when the checked configuration values are missing; with `MY_EMAIL`
absent (`undefined`), the first processed email throws a `TypeError` at
`yourEmailAddress.toLowerCase()` and the run crashes (emails whose metadata
fetch fails are skipped before that point, so a run that processes no email
completes normally); otherwise run the loop. -/
def runScript1 (cfg : Config) (cards : List TrelloCard)
    (emails : List (EmailMessage × EmailEnv)) : Script1Outcome :=
  if script1ConfigOk cfg = false then .configError
  else
    match cfg.MY_EMAIL with
    | some yourEmailAddress => .ok (runEmails cfg yourEmailAddress (initState cards) emails)
    | none =>
      if emails.all (fun p => p.2.fetchOk = false) then .ok (initState cards)
      else .crashed

/-! ### Script 2: the Job Status Checker -/

/-- `checkJobStatusWithAI(url)`: `true` means ACTIVE.  No client, a thrown
call, and any response other than `ACTIVE`/`DELETED` (after trim and
uppercase) all yield `true`; only a `DELETED` response yields `false`.
`url` only feeds the prompt. -/
def checkJobStatusWithAI (url : String) (outcome : AIOutcome) : Bool :=
  match outcome with
  | .noClient => true
  | .failure => true
  | .response content =>
    let classification := jsToUpper (jsTrim content)
    if classification = "ACTIVE" then true
    else if classification = "DELETED" then false
    else true

/-- A Trello attachment as the checker reads it. -/
structure Attachment where
  isUpload : Bool
  url : String
deriving DecidableEq

/-- `attachments.find(att => att.isUpload === false && att.url)`. -/
def findLinkAttachment (attachments : List Attachment) : Option Attachment :=
  attachments.find? (fun att => att.isUpload = false && decide (att.url ≠ ""))

/-- The per-card externals of one checker iteration: the attachment fetch
result (`none` when the request threw), the AI call outcome, and whether
the move request succeeds. -/
structure CardEnv where
  attachmentsResult : Option (List Attachment)
  aiOutcome : AIOutcome
  moveOk : Bool
deriving DecidableEq

/-- The mutable state of one Job Status Checker run. -/
structure CheckerState where
  cardsMoved : Nat
  deletedJobNames : List String
  moveAttempts : List MoveAttempt
deriving DecidableEq

/-- The empty checker state. -/
def initChecker : CheckerState :=
  { cardsMoved := 0, deletedJobNames := [], moveAttempts := [] }

/-- One iteration of the checker's per-card loop (lines 464-508): skip the
card when the attachment fetch threw or no link attachment exists;
otherwise ask the AI about the attachment's URL and, when the job is not
active, issue the move request to the deleted-jobs list. -/
def processCard (targetListId : String) (st : CheckerState) (card : TrelloCard)
    (env : CardEnv) : CheckerState :=
  match env.attachmentsResult with
  | none => st
  | some attachments =>
    match findLinkAttachment attachments with
    | none => st
    | some linkAttachment =>
      let isJobActive := checkJobStatusWithAI linkAttachment.url env.aiOutcome
      if isJobActive then st
      else
        if env.moveOk then
          { cardsMoved := st.cardsMoved + 1,
            deletedJobNames := st.deletedJobNames ++ [card.name],
            moveAttempts := st.moveAttempts ++ [⟨card.id, targetListId, true⟩] }
        else
          { st with moveAttempts := st.moveAttempts ++ [⟨card.id, targetListId, false⟩] }

/-- The environment variables read by the Job Status Checker script. -/
structure Config2 where
  TRELLO_API_KEY : Option String
  TRELLO_TOKEN : Option String
  GROQ_API_KEY : Option String
  TRELLO_SENT_CV_LIST_ID : Option String
  TRELLO_JOB_DELETED_FROM_WEBSITE_LIST_ID : Option String
  NTFY_TOPIC : Option String
deriving DecidableEq

/-- The configuration guard of the Job Status Checker (line 429). -/
def script2ConfigOk (cfg : Config2) : Bool :=
  jsTruthy cfg.TRELLO_API_KEY && jsTruthy cfg.TRELLO_TOKEN &&
  jsTruthy cfg.GROQ_API_KEY &&
  jsTruthy cfg.TRELLO_JOB_DELETED_FROM_WEBSITE_LIST_ID &&
  jsTruthy cfg.TRELLO_SENT_CV_LIST_ID

/-- Outcome of one Job Status Checker run (for runs whose card fetch
succeeds). -/
inductive Script2Outcome where
  | configError : Script2Outcome
  | ok : CheckerState → Script2Outcome
deriving DecidableEq

/-- A Job Status Checker run, given the fetched cards with their per-card
externals: abort when any of the five checked configuration values is
missing, else run the loop. -/
def runScript2 (cfg : Config2) (cards : List (TrelloCard × CardEnv)) : Script2Outcome :=
  if script2ConfigOk cfg = false then .configError
  else
    .ok (cards.foldl
      (fun st p =>
        processCard (cfg.TRELLO_JOB_DELETED_FROM_WEBSITE_LIST_ID.getD "") st p.1 p.2)
      initChecker)

/-- The card ids of the successful move requests of a run. -/
def successfulMoveIds (st : RunState) : List String :=
  (st.moveAttempts.filter (fun a => a.ok)).map MoveAttempt.cardId

/-- The AI status call failed or was unusable: no client, a thrown call, or
a response that is neither `ACTIVE` nor `DELETED` after trim/uppercase. -/
def aiStatusFailed (o : AIOutcome) : Prop :=
  o = .noClient ∨ o = .failure ∨
  ∃ content, o = .response content ∧
    jsToUpper (jsTrim content) ≠ "ACTIVE" ∧ jsToUpper (jsTrim content) ≠ "DELETED"


/-! ### Invariant definitions and concrete fixtures -/

/-- Order relation on recorded move attempts: a successful attempt is never
followed by another attempt on the same card. -/
def attemptOrd (a b : MoveAttempt) : Prop :=
  a.ok = true → a.cardId ≠ b.cardId

/-- The loop invariant: move attempts satisfy `attemptOrd` pairwise in issue
order, the card of every successful attempt is gone from the candidate set,
and no card id has two successful attempts. -/
def RunInv (st : RunState) : Prop :=
  List.Pairwise attemptOrd st.moveAttempts ∧
  (∀ a ∈ st.moveAttempts, a.ok = true → a.cardId ∉ st.trelloCards.map TrelloCard.id) ∧
  (successfulMoveIds st).Nodup

/-- A configuration with the three values the Reply Classifier checks, a
destination for `OTHER_REPLY`, a recipient address, and no AI key. -/
def cfgA : Config :=
  { TRELLO_API_KEY := some "key", TRELLO_TOKEN := some "token",
    TRELLO_SENT_CV_LIST_ID := some "cv-list",
    TRELLO_ESTABLISHED_CONTACT_LIST_ID := some "contact-list",
    TRELLO_INITIAL_INTERVIEW_LIST_ID := none,
    TRELLO_CODING_INTERVIEW_LIST_ID := none,
    TRELLO_ARCHITECTURE_INTERVIEW_LIST_ID := none,
    TRELLO_MANAGEMENT_AND_HR_LIST_ID := none,
    TRELLO_DROPPED_INITIAL_LIST_ID := none,
    GROQ_API_KEY := none, NTFY_TOPIC := none, MY_EMAIL := some "me@x.com" }

/-- `cfgA` with the recipient address (`MY_EMAIL`) absent. -/
def cfgNoEmail : Config := { cfgA with MY_EMAIL := none }

/-- `cfgA` with a checked value (`TRELLO_TOKEN`) absent. -/
def cfgMissing : Config := { cfgA with TRELLO_TOKEN := none }

/-- A checker configuration with `TRELLO_TOKEN` absent. -/
def cfg2Missing : Config2 :=
  { TRELLO_API_KEY := some "key", TRELLO_TOKEN := none, GROQ_API_KEY := some "gq",
    TRELLO_SENT_CV_LIST_ID := some "cv-list",
    TRELLO_JOB_DELETED_FROM_WEBSITE_LIST_ID := some "del-list", NTFY_TOPIC := none }

/-- A card tagged with the sender domain `acme.com` (one space after the colon). -/
def cardAcme : TrelloCard := ⟨"c1", "Acme Role", "Applied. domain: acme.com"⟩

/-- A card whose tag has no space after the colon. -/
def cardNoSpace : TrelloCard := ⟨"cA", "NoSpace", "domain:acme.com"⟩

/-- A card whose tag has exactly one space after the colon. -/
def cardSpace : TrelloCard := ⟨"cB", "Space", "domain: acme.com"⟩

/-- A card tagged with a thread id. -/
def cardThread : TrelloCard := ⟨"cT", "Thread", "threadId: T100"⟩

/-- An unread email from `acme.com` addressed to the recipient. -/
def msgAcme : EmailMessage :=
  ⟨"m1", none, "Re: your application", "HR <hr@acme.com>", "me@x.com", "we would like"⟩

/-- A second unread email from `acme.com` addressed to the recipient. -/
def msgAcme2 : EmailMessage :=
  ⟨"m2", none, "Re: next steps", "HR <hr@acme.com>", "me@x.com", "following up"⟩

/-- An unread email whose To header does not contain the recipient. -/
def msgOther : EmailMessage :=
  ⟨"m3", none, "Newsletter", "news@y.com", "other@y.com", "read this"⟩

/-- Iteration externals: fetch succeeds, no AI client, the move request fails. -/
def envFailMove : EmailEnv := ⟨true, .noClient, false⟩

/-- Iteration externals: fetch succeeds, no AI client, the move request succeeds. -/
def envOkMove : EmailEnv := ⟨true, .noClient, true⟩
/-! ### Lemmas about the string primitives -/

theorem matchLit_eq_some (p : List Char) :
    ∀ s r : List Char, matchLit p s = some r ↔ s = p ++ r := by
  induction p with
  | nil =>
    intro s r
    simp [matchLit, eq_comm]
  | cons a ps ih =>
    intro s r
    cases s with
    | nil => simp [matchLit]
    | cons c cs =>
      by_cases h : a = c
      · subst h
        simp [matchLit, ih]
      · simp only [matchLit, if_neg h, List.cons_append]
        constructor
        · intro hfalse
          cases hfalse
        · intro hEq
          have h1 : c = a := by injection hEq
          exact absurd h1.symm h

theorem matchLit_self_append (p r : List Char) : matchLit p (p ++ r) = some r :=
  (matchLit_eq_some p (p ++ r) r).mpr rfl

theorem matchLit_isSome (p s : List Char) :
    (matchLit p s).isSome = true ↔ ∃ r, s = p ++ r := by
  cases h : matchLit p s with
  | none =>
    simp only [Option.isSome_none, Bool.false_eq_true, false_iff]
    rintro ⟨r, rfl⟩
    rw [matchLit_self_append] at h
    exact absurd h (by simp)
  | some r =>
    simp only [Option.isSome_some, true_iff]
    exact ⟨r, (matchLit_eq_some p s r).mp h⟩

theorem scanTail_iff (f : List Char → Bool) :
    ∀ s : List Char, scanTail f s = true ↔ ∃ pre post, s = pre ++ post ∧ f post = true := by
  intro s
  induction s with
  | nil =>
    simp only [scanTail]
    constructor
    · intro h
      exact ⟨[], [], rfl, h⟩
    · rintro ⟨pre, post, hEq, hf⟩
      obtain ⟨rfl, rfl⟩ := List.append_eq_nil.mp hEq.symm
      exact hf
  | cons c cs ih =>
    simp only [scanTail, Bool.or_eq_true, ih]
    constructor
    · rintro (h | ⟨pre, post, hEq, hf⟩)
      · exact ⟨[], c :: cs, rfl, h⟩
      · exact ⟨c :: pre, post, by rw [List.cons_append, hEq], hf⟩
    · rintro ⟨pre, post, hEq, hf⟩
      cases pre with
      | nil =>
        left
        simp only [List.nil_append] at hEq
        rw [hEq]
        exact hf
      | cons a as =>
        right
        rw [List.cons_append] at hEq
        have hc : c = a := by injection hEq
        have hcs : cs = as ++ post := by injection hEq
        exact ⟨as, post, hcs, hf⟩

theorem strIncludes_iff (hay needle : String) :
    strIncludes hay needle = true ↔
      ∃ pre post, hay.data = pre ++ (needle.data ++ post) := by
  unfold strIncludes
  rw [scanTail_iff]
  constructor
  · rintro ⟨pre, tail, hEq, hf⟩
    obtain ⟨r, rfl⟩ := (matchLit_isSome _ _).mp hf
    exact ⟨pre, r, hEq⟩
  · rintro ⟨pre, post, hEq⟩
    exact ⟨pre, needle.data ++ post, hEq, (matchLit_isSome _ _).mpr ⟨post, rfl⟩⟩

theorem matchBody_iff (dom s : List Char) :
    matchBody dom s = true ↔
      ∃ body post, s = body ++ post ∧ (body = dom ∨ body = '[' :: (dom ++ [']'])) := by
  unfold matchBody
  rw [Bool.or_eq_true, matchLit_isSome, matchLit_isSome]
  constructor
  · rintro (⟨r, rfl⟩ | ⟨r, rfl⟩)
    · exact ⟨dom, r, rfl, Or.inl rfl⟩
    · exact ⟨'[' :: (dom ++ [']']), r, rfl, Or.inr rfl⟩
  · rintro ⟨body, post, rfl, (rfl | rfl)⟩
    · exact Or.inl ⟨post, rfl⟩
    · exact Or.inr ⟨post, rfl⟩

theorem matchWsBody_iff (dom : List Char) :
    ∀ s : List Char, matchWsBody dom s = true ↔
      ∃ ws rest, s = ws ++ rest ∧ (∀ c ∈ ws, isSpaceChar c = true) ∧
        matchBody dom rest = true := by
  intro s
  induction s with
  | nil =>
    simp only [matchWsBody]
    constructor
    · intro h
      exact ⟨[], [], rfl, by simp, h⟩
    · rintro ⟨ws, rest, hEq, _, hb⟩
      obtain ⟨rfl, rfl⟩ := List.append_eq_nil.mp hEq.symm
      exact hb
  | cons c cs ih =>
    simp only [matchWsBody, Bool.or_eq_true, Bool.and_eq_true, ih]
    constructor
    · rintro (h | ⟨hsp, ws, rest, hEq, hws, hb⟩)
      · exact ⟨[], c :: cs, rfl, by simp, h⟩
      · refine ⟨c :: ws, rest, by rw [List.cons_append, hEq], ?_, hb⟩
        intro ch hch
        rcases List.mem_cons.mp hch with rfl | hch2
        · exact hsp
        · exact hws ch hch2
    · rintro ⟨ws, rest, hEq, hws, hb⟩
      cases ws with
      | nil =>
        left
        simp only [List.nil_append] at hEq
        rw [hEq]
        exact hb
      | cons a as =>
        right
        rw [List.cons_append] at hEq
        have hc : c = a := by injection hEq
        have hcs : cs = as ++ rest := by injection hEq
        subst hc
        refine ⟨hws c (List.mem_cons_self c as), as, rest, hcs, ?_, hb⟩
        intro ch hch
        exact hws ch (List.mem_cons_of_mem _ hch)

theorem matchAt_iff (dom s : List Char) :
    matchAt dom s = true ↔
      ∃ tail, s = "domain:".data ++ tail ∧ matchWsBody dom tail = true := by
  unfold matchAt
  cases h : matchLit "domain:".data s with
  | none =>
    show false = true ↔ _
    simp only [Bool.false_eq_true, false_iff]
    rintro ⟨tail, rfl, _⟩
    rw [matchLit_self_append] at h
    exact absurd h (by simp)
  | some rest =>
    have hs : s = "domain:".data ++ rest := (matchLit_eq_some _ _ _).mp h
    show matchWsBody dom rest = true ↔ _
    constructor
    · intro hw
      exact ⟨rest, hs, hw⟩
    · rintro ⟨tail, hEq, hw⟩
      have hteq : tail = rest := by
        have h2 : "domain:".data ++ tail = "domain:".data ++ rest := by rw [← hEq, ← hs]
        exact List.append_cancel_left h2
      rw [← hteq]
      exact hw

theorem regexTest_iff (dom s : List Char) :
    regexTest dom s = true ↔ DomainPatternSpec dom s := by
  unfold regexTest DomainPatternSpec
  rw [scanTail_iff]
  constructor
  · rintro ⟨pre, tail, hEq, hAt⟩
    obtain ⟨tail2, rfl, hw⟩ := (matchAt_iff dom tail).mp hAt
    obtain ⟨ws, rest, rfl, hws, hb⟩ := (matchWsBody_iff dom tail2).mp hw
    obtain ⟨body, post, rfl, hOr⟩ := (matchBody_iff dom rest).mp hb
    exact ⟨pre, ws, body, post, hEq, hws, hOr⟩
  · rintro ⟨pre, ws, body, post, hEq, hws, hOr⟩
    refine ⟨pre, _, hEq, ?_⟩
    rw [matchAt_iff]
    refine ⟨ws ++ (body ++ post), rfl, ?_⟩
    rw [matchWsBody_iff]
    refine ⟨ws, body ++ post, rfl, hws, ?_⟩
    rw [matchBody_iff]
    exact ⟨body, post, rfl, hOr⟩

/-! ### Lemmas about `find?` and strings -/

theorem findCongr {α : Type} (p q : α → Bool) :
    ∀ l : List α, (∀ a ∈ l, p a = q a) → l.find? p = l.find? q := by
  intro l
  induction l with
  | nil => intro _; rfl
  | cons a as ih =>
    intro h
    have ha := h a (List.mem_cons_self a as)
    cases hq : q a with
    | true => simp [List.find?, ha, hq]
    | false =>
      simp only [List.find?, ha, hq]
      exact ih (fun b hb => h b (List.mem_cons_of_mem _ hb))

theorem strDataAppend (s t : String) : (s ++ t).data = s.data ++ t.data := by
  cases s
  cases t
  rfl

theorem ne_empty_of_data_ne_nil {s : String} (h : s.data ≠ []) : s ≠ "" := by
  intro hs
  rw [hs] at h
  exact h rfl

/-- A nonempty substring forces a nonempty (truthy) string. -/
theorem strIncludes_ne_empty {hay needle : String} (hn : needle.data ≠ [])
    (h : strIncludes hay needle = true) : hay ≠ "" := by
  obtain ⟨pre, post, hEq⟩ := (strIncludes_iff hay needle).mp h
  apply ne_empty_of_data_ne_nil
  rw [hEq]
  intro hnil
  obtain ⟨_, hnil2⟩ := List.append_eq_nil.mp hnil
  exact hn (List.append_eq_nil.mp hnil2).1

/-- Any card produced by the matching stage is an element of the candidate
set it searched. -/
theorem findMatchingCard_mem (tid dom : Option String) (cards : List TrelloCard)
    (c : TrelloCard) (h : findMatchingCard tid dom cards = some c) : c ∈ cards := by
  unfold findMatchingCard at h
  cases h1 : (if jsTruthy tid then findThreadMatch (tid.getD "") cards else none) with
  | some c2 =>
    rw [h1] at h
    have hc2 : c2 = c := by injection h
    subst hc2
    by_cases ht : jsTruthy tid = true
    · rw [if_pos ht] at h1
      exact List.mem_of_find?_eq_some h1
    · rw [if_neg ht] at h1
      exact absurd h1 (by simp)
  | none =>
    rw [h1] at h
    by_cases hd : jsTruthy dom = true
    · rw [if_pos hd] at h
      exact List.mem_of_find?_eq_some h
    · rw [if_neg hd] at h
      exact absurd h (by simp)

/-! ### The run invariant of the Reply Classifier loop -/

/-- Case analysis of one loop iteration: either no move request is issued
and the candidate set is untouched, or exactly one request is issued, for a
card of the current candidate set — on success that card is removed from
the candidate set, on failure the candidate set is untouched. -/
theorem processEmail_spec (cfg : Config) (me : String) (st : RunState)
    (m : EmailMessage) (e : EmailEnv) :
    ((processEmail cfg me st m e).moveAttempts = st.moveAttempts ∧
     (processEmail cfg me st m e).trelloCards = st.trelloCards) ∨
    (∃ card t, card ∈ st.trelloCards ∧
      (((processEmail cfg me st m e).moveAttempts = st.moveAttempts ++ [⟨card.id, t, true⟩] ∧
        (processEmail cfg me st m e).trelloCards = removeCard st.trelloCards card.id) ∨
       ((processEmail cfg me st m e).moveAttempts = st.moveAttempts ++ [⟨card.id, t, false⟩] ∧
        (processEmail cfg me st m e).trelloCards = st.trelloCards))) := by
  simp only [processEmail]
  split
  · exact Or.inl ⟨rfl, rfl⟩
  · split
    · exact Or.inl ⟨rfl, rfl⟩
    · split
      · exact Or.inl ⟨rfl, rfl⟩
      · next card heq =>
        split
        · split
          · exact Or.inr ⟨card, _, findMatchingCard_mem _ _ _ _ heq, Or.inl ⟨rfl, rfl⟩⟩
          · exact Or.inr ⟨card, _, findMatchingCard_mem _ _ _ _ heq, Or.inr ⟨rfl, rfl⟩⟩
        · exact Or.inl ⟨rfl, rfl⟩

theorem runInv_step (cfg : Config) (me : String) (st : RunState)
    (m : EmailMessage) (e : EmailEnv) (h : RunInv st) :
    RunInv (processEmail cfg me st m e) := by
  obtain ⟨hpw, hout, hnd⟩ := h
  rcases processEmail_spec cfg me st m e with ⟨hA, hC⟩ | ⟨card, t, hmem, hcase⟩
  · refine ⟨hA ▸ hpw, ?_, ?_⟩
    · rw [hA, hC]
      exact hout
    · unfold successfulMoveIds
      rw [hA]
      exact hnd
  · have hidmem : card.id ∈ st.trelloCards.map TrelloCard.id :=
      List.mem_map_of_mem _ hmem
    rcases hcase with ⟨hA, hC⟩ | ⟨hA, hC⟩
    · -- successful move: the card leaves the candidate set
      refine ⟨?_, ?_, ?_⟩
      · rw [hA, List.pairwise_append]
        refine ⟨hpw, by simp [attemptOrd], ?_⟩
        intro a ha b hb
        rw [List.mem_singleton] at hb
        subst hb
        intro haok heqid
        exact (hout a ha haok) (heqid ▸ hidmem)
      · rw [hA, hC]
        intro a ha haok
        rcases List.mem_append.mp ha with ha2 | ha2
        · intro hmem2
          have hsub : (removeCard st.trelloCards card.id).map TrelloCard.id ⊆
              st.trelloCards.map TrelloCard.id :=
            List.map_subset _ (List.filter_subset' _)
          exact (hout a ha2 haok) (hsub hmem2)
        · rw [List.mem_singleton] at ha2
          subst ha2
          intro hmem2
          obtain ⟨c, hcmem, hcid⟩ := List.mem_map.mp hmem2
          unfold removeCard at hcmem
          rw [List.mem_filter] at hcmem
          have : c.id ≠ card.id := by simpa using hcmem.2
          exact this hcid
      · unfold successfulMoveIds
        rw [hA, List.filter_append, List.map_append]
        have hfil : List.filter (fun a => a.ok) [(⟨card.id, t, true⟩ : MoveAttempt)] =
            [⟨card.id, t, true⟩] := by simp
        rw [hfil]
        rw [List.nodup_append]
        refine ⟨hnd, by simp, ?_⟩
        intro x hx hx2
        rw [List.map_singleton, List.mem_singleton] at hx2
        subst hx2
        obtain ⟨a, hafil, hax⟩ := List.mem_map.mp hx
        rw [List.mem_filter] at hafil
        exact (hout a hafil.1 hafil.2) (hax ▸ hidmem)
    · -- failed move: attempt recorded, candidate set untouched
      refine ⟨?_, ?_, ?_⟩
      · rw [hA, List.pairwise_append]
        refine ⟨hpw, by simp [attemptOrd], ?_⟩
        intro a ha b hb
        rw [List.mem_singleton] at hb
        subst hb
        intro haok heqid
        exact (hout a ha haok) (heqid ▸ hidmem)
      · rw [hA, hC]
        intro a ha haok
        rcases List.mem_append.mp ha with ha2 | ha2
        · exact hout a ha2 haok
        · rw [List.mem_singleton] at ha2
          subst ha2
          exact absurd haok (by simp)
      · unfold successfulMoveIds
        rw [hA, List.filter_append]
        have hfil : List.filter (fun a => a.ok) [(⟨card.id, t, false⟩ : MoveAttempt)] = [] := by
          simp
        rw [hfil, List.append_nil]
        exact hnd

theorem foldlInv {σ β : Type} (P : σ → Prop) (f : σ → β → σ)
    (hstep : ∀ s b, P s → P (f s b)) :
    ∀ (l : List β) (s : σ), P s → P (l.foldl f s) := by
  intro l
  induction l with
  | nil => intro s h; exact h
  | cons b bs ih =>
    intro s h
    exact ih (f s b) (hstep s b h)

theorem runInv_initState (cards : List TrelloCard) : RunInv (initState cards) := by
  refine ⟨by simp [initState], by simp [initState], ?_⟩
  simp [initState, successfulMoveIds]

theorem runEmails_inv (cfg : Config) (me : String) (cards : List TrelloCard)
    (emails : List (EmailMessage × EmailEnv)) :
    RunInv (runEmails cfg me (initState cards) emails) :=
  foldlInv RunInv _ (fun s p h => runInv_step cfg me s p.1 p.2 h) emails
    (initState cards) (runInv_initState cards)

/-! ### Claim theorems -/

/-- Claim C3: for every subject and snippet and every possible AI-service
response or failure, `classifyEmailWithAI` returns a value of the fixed
label set; no input can produce a value outside it. -/
theorem claim3_classify_in_label_set (subject snippet : String) (outcome : AIOutcome) :
    classifyEmailWithAI subject snippet outcome ∈ categories := by
  cases outcome with
  | noClient => simp [classifyEmailWithAI, categories]
  | failure => simp [classifyEmailWithAI, categories]
  | response content =>
    simp only [classifyEmailWithAI]
    split
    · assumption
    · simp [categories]

/-- Claim C4: when the classification client is not initialized, the service
call throws, or the trimmed and upper-cased response is not a recognized
category token, `classifyEmailWithAI` returns the safe default
`"OTHER_REPLY"`.  The function is total on these outcomes (the error case is
an explicit constructor of its input), so no error reaches the caller. -/
theorem claim4_classify_fail_default (subject snippet : String) :
    classifyEmailWithAI subject snippet .noClient = "OTHER_REPLY" ∧
    classifyEmailWithAI subject snippet .failure = "OTHER_REPLY" ∧
    ∀ content, jsToUpper (jsTrim content) ∉ categories →
      classifyEmailWithAI subject snippet (.response content) = "OTHER_REPLY" := by
  refine ⟨rfl, rfl, ?_⟩
  intro content h
  simp only [classifyEmailWithAI]
  rw [if_neg h]

theorem claim4_witness :
    classifyEmailWithAI "Re: update" "thanks for applying" (.response " maybe later ") =
      "OTHER_REPLY" :=
  (claim4_classify_fail_default "Re: update" "thanks for applying").2.2 " maybe later "
    (by decide)

/-- Claim C8: when the AI status call fails (no client, a thrown call, or a
response that is neither `ACTIVE` nor `DELETED` after trim and uppercase),
`checkJobStatusWithAI` returns `true` (ACTIVE) for every URL, and the
checker iteration leaves its state unchanged: no move request is issued for
the card. -/
theorem claim8_status_fail_safe (targetListId : String) (st : CheckerState)
    (card : TrelloCard) (env : CardEnv) (url : String)
    (h : aiStatusFailed env.aiOutcome) :
    checkJobStatusWithAI url env.aiOutcome = true ∧
    processCard targetListId st card env = st := by
  have hactive : ∀ u : String, checkJobStatusWithAI u env.aiOutcome = true := by
    intro u
    rcases h with h1 | h1 | ⟨content, h1, h2, h3⟩
    · rw [h1]; rfl
    · rw [h1]; rfl
    · rw [h1]
      simp only [checkJobStatusWithAI]
      rw [if_neg h2, if_neg h3]
  refine ⟨hactive url, ?_⟩
  simp only [processCard]
  split
  · rfl
  · split
    · rfl
    · next att _ => simp [hactive att.url]

theorem claim8_witness :
    checkJobStatusWithAI "https://jobs.example/1" AIOutcome.failure = true ∧
    processCard "del-list" initChecker cardAcme
      ⟨some [⟨false, "https://jobs.example/1"⟩], AIOutcome.failure, true⟩ = initChecker :=
  claim8_status_fail_safe "del-list" initChecker cardAcme
    ⟨some [⟨false, "https://jobs.example/1"⟩], AIOutcome.failure, true⟩
    "https://jobs.example/1" (Or.inr (Or.inl rfl))

/-- Claim C10: an email whose To header does not contain the configured
recipient address (case-insensitively) is skipped entirely: the iteration
returns the state unchanged — no matching, no classification call, no move
request, no mark-as-read request. -/
theorem claim10_skip_unaddressed (cfg : Config) (yourEmailAddress : String)
    (st : RunState) (msg : EmailMessage) (env : EmailEnv)
    (hfetch : env.fetchOk = true)
    (hto : strIncludes (jsToLower msg.toHeader) (jsToLower yourEmailAddress) = false) :
    processEmail cfg yourEmailAddress st msg env = st := by
  unfold processEmail
  rw [if_neg (by simp [hfetch]), if_pos hto]

theorem claim10_witness :
    processEmail cfgA "me@x.com" (initState [cardAcme]) msgOther envOkMove =
      initState [cardAcme] :=
  claim10_skip_unaddressed cfgA "me@x.com" (initState [cardAcme]) msgOther envOkMove
    rfl (by decide)

/-- Claim C7: for a matched card whose classification label has no truthy
configured destination list id (the label is `OFFER`, an unknown label, or
the mapped environment value is absent or empty), the iteration only
records the classification call: the candidate set, the move requests and
the mark-as-read requests are exactly those of the pre-state, so the card's
list membership is untouched and the email stays unread. -/
theorem claim7_no_target_no_action (cfg : Config) (yourEmailAddress : String)
    (st : RunState) (msg : EmailMessage) (env : EmailEnv) (card : TrelloCard)
    (hfetch : env.fetchOk = true)
    (hto : strIncludes (jsToLower msg.toHeader) (jsToLower yourEmailAddress) = true)
    (hmatch : findMatchingCard msg.threadId
        (extractDomain (extractFromEmail msg.fromHeader)) st.trelloCards = some card)
    (htarget : jsTruthy (labelTarget cfg
        (classifyEmailWithAI msg.subject msg.snippet env.aiOutcome)).1 = false) :
    processEmail cfg yourEmailAddress st msg env = { st with aiCalls := st.aiCalls + 1 } := by
  simp only [processEmail]
  rw [if_neg (by simp [hfetch]), if_neg (by simp [hto]), hmatch]
  simp only []
  rw [if_neg (by simp [htarget])]

theorem claim7_witness :
    processEmail cfgA "me@x.com" (initState [cardAcme])
      ⟨"m9", none, "Offer letter", "hr@acme.com", "me@x.com", "congrats"⟩
      ⟨true, .response "OFFER", true⟩ =
      { initState [cardAcme] with aiCalls := 1 } :=
  claim7_no_target_no_action cfgA "me@x.com" (initState [cardAcme])
    ⟨"m9", none, "Offer letter", "hr@acme.com", "me@x.com", "congrats"⟩
    ⟨true, .response "OFFER", true⟩ cardAcme rfl (by decide) (by decide) (by decide)

/-- Claim C1: when the email has a (truthy) thread id and some candidate
card's description contains the exact substring `threadId: <id>`, the match
is the first such card in collection order, whatever the sender domain is —
the domain stage is never reached for that email. -/
theorem claim1_thread_first (cards : List TrelloCard) (tid : String) (dom : Option String)
    (htid : tid ≠ "")
    (hexists : ∃ c ∈ cards, strIncludes c.desc ("threadId: " ++ tid) = true) :
    ∃ c, cards.find? (fun card => strIncludes card.desc ("threadId: " ++ tid)) = some c ∧
      findMatchingCard (some tid) dom cards = some c := by
  have hneedle : ("threadId: " ++ tid).data ≠ [] := by
    rw [strDataAppend]
    intro hnil
    exact absurd (List.append_eq_nil.mp hnil).1 (by decide)
  have hpt : ∀ card ∈ cards, threadIdPred ("threadId: " ++ tid) card =
      strIncludes card.desc ("threadId: " ++ tid) := by
    intro card _
    unfold threadIdPred
    cases hinc : strIncludes card.desc ("threadId: " ++ tid) with
    | false => simp
    | true =>
      have hne : card.desc ≠ "" := strIncludes_ne_empty hneedle hinc
      simp [hne]
  have hsome : (cards.find? (fun card => strIncludes card.desc ("threadId: " ++ tid))).isSome := by
    rw [List.find?_isSome]
    obtain ⟨c, hc, hinc⟩ := hexists
    exact ⟨c, hc, hinc⟩
  obtain ⟨c, hc⟩ := Option.isSome_iff_exists.mp hsome
  refine ⟨c, hc, ?_⟩
  have htruthy : jsTruthy (some tid) = true := by simp [jsTruthy, htid]
  have hdisc : (if jsTruthy (some tid)
      then findThreadMatch ((some tid : Option String).getD "") cards else none) = some c := by
    rw [htruthy, if_pos rfl]
    show cards.find? (threadIdPred ("threadId: " ++ tid)) = some c
    rw [findCongr _ _ cards hpt]
    exact hc
  unfold findMatchingCard
  rw [hdisc]

theorem claim1_witness :
    ∃ c, [cardThread].find? (fun card => strIncludes card.desc ("threadId: " ++ "T100")) =
        some c ∧
      findMatchingCard (some "T100") (some "acme.com") [cardThread] = some c :=
  claim1_thread_first [cardThread] "T100" (some "acme.com") (by decide)
    ⟨cardThread, by decide, by decide⟩

/-- Claim C2, counterexample to the claim as stated: with domain `acme.com`
and no thread match, the code returns the card whose description reads
`domain:acme.com` (no space — the pattern's `\s*` accepts it) even though
it contains neither `domain: acme.com` nor `domain: [acme.com]`, so the
returned card is not the first card containing one of those substrings —
that card (`cardSpace`) comes later. -/
theorem claim2_counterexample :
    findMatchingCard none (some "acme.com") [cardNoSpace, cardSpace] = some cardNoSpace ∧
    strIncludes (jsToLower cardNoSpace.desc) (jsToLower "domain: acme.com") = false ∧
    strIncludes (jsToLower cardNoSpace.desc) (jsToLower "domain: [acme.com]") = false ∧
    strIncludes (jsToLower cardSpace.desc) (jsToLower "domain: acme.com") = true ∧
    cardNoSpace ≠ cardSpace := by
  refine ⟨by decide, by decide, by decide, by decide, by decide⟩

/-- Claim C2 as amended: with no thread-stage match and a truthy derived
domain `d` (made of letters, digits, dots and hyphens, so that dot-escaping
makes the built regex a literal match), the match is the first card in
collection order whose nonempty description matches, case-insensitively,
`domain:` followed by any amount of whitespace and then `d` or `[d]` (dots
taken literally).  A description containing the exact substring
`domain: <d>` (case-insensitively) does match. -/
theorem claim2_amended (cards : List TrelloCard) (tid : Option String) (d : String)
    (hd : d ≠ "")
    (hsafe : d.data.all domainSafeChar = true)
    (hthread : (if jsTruthy tid then findThreadMatch (tid.getD "") cards else none) = none) :
    findMatchingCard tid (some d) cards = cards.find? (domainPred d) ∧
    (∀ card : TrelloCard, domainPred d card = true ↔
      (card.desc ≠ "" ∧ DomainPatternSpec (jsToLower d).data (jsToLower card.desc).data)) ∧
    (∀ card : TrelloCard,
      strIncludes (jsToLower card.desc) (jsToLower ("domain: " ++ d)) = true →
      domainPred d card = true) := by
  have hiff : ∀ card : TrelloCard, domainPred d card = true ↔
      (card.desc ≠ "" ∧ DomainPatternSpec (jsToLower d).data (jsToLower card.desc).data) := by
    intro card
    simp only [domainPred, domainRegexTest, Bool.and_eq_true, decide_eq_true_eq,
      regexTest_iff]
  refine ⟨?_, hiff, ?_⟩
  · unfold findMatchingCard
    rw [hthread]
    have htruthy : jsTruthy (some d) = true := by simp [jsTruthy, hd]
    rw [htruthy, if_pos rfl]
    rfl
  · intro card hinc
    have hstep : (jsToLower ("domain: " ++ d)).data =
        "domain:".data ++ ([' '] ++ (jsToLower d).data) := by
      show ("domain: " ++ d).data.map Char.toLower = _
      rw [strDataAppend, List.map_append]
      have h1 : "domain: ".data.map Char.toLower = "domain:".data ++ [' '] := by decide
      rw [h1, List.append_assoc]
      rfl
    obtain ⟨pre, post, hEq⟩ := (strIncludes_iff _ _).mp hinc
    rw [hstep] at hEq
    simp only [List.append_assoc] at hEq
    have hne : card.desc ≠ "" := by
      intro h0
      rw [h0] at hEq
      simp [jsToLower] at hEq
    refine (hiff card).mpr ⟨hne, pre, [' '], (jsToLower d).data, post, ?_, ?_, Or.inl rfl⟩
    · simpa [List.append_assoc] using hEq
    · intro c hc
      rw [List.mem_singleton] at hc
      subst hc
      decide

theorem claim2_witness :
    findMatchingCard none (some "acme.com") [cardSpace] =
      [cardSpace].find? (domainPred "acme.com") :=
  (claim2_amended [cardSpace] none "acme.com" (by decide) (by decide) (by decide)).1

/-- Claim C5: over any Reply Classifier run, the successful moves carry
pairwise distinct card ids (a successfully moved card is moved at most once
per run), the card of every successful move is absent from the final
candidate set (it was removed right after its move and the set only ever
shrinks), and every match the matcher can produce comes from the candidate
set it is given — so a removed card can no longer be matched, by thread id
or domain, for any later email. -/
theorem claim5_moved_once (cfg : Config) (yourEmailAddress : String)
    (cards : List TrelloCard) (emails : List (EmailMessage × EmailEnv)) :
    (successfulMoveIds (runEmails cfg yourEmailAddress (initState cards) emails)).Nodup ∧
    (∀ cid ∈ successfulMoveIds (runEmails cfg yourEmailAddress (initState cards) emails),
      cid ∉ (runEmails cfg yourEmailAddress (initState cards) emails).trelloCards.map
        TrelloCard.id) ∧
    (∀ (tid dom : Option String) (cs : List TrelloCard) (c : TrelloCard),
      findMatchingCard tid dom cs = some c → c ∈ cs) := by
  obtain ⟨hpw, hout, hnd⟩ := runEmails_inv cfg yourEmailAddress cards emails
  refine ⟨hnd, ?_, findMatchingCard_mem⟩
  intro cid hcid
  unfold successfulMoveIds at hcid
  obtain ⟨a, hafil, hax⟩ := List.mem_map.mp hcid
  rw [List.mem_filter] at hafil
  exact hax ▸ hout a hafil.1 hafil.2

theorem claim5_witness :
    (successfulMoveIds (runEmails cfgA "me@x.com" (initState [cardAcme])
      [(msgAcme, envOkMove)])).Nodup :=
  (claim5_moved_once cfgA "me@x.com" [cardAcme] [(msgAcme, envOkMove)]).1

/-- Claim C6, counterexample to the claim as stated: a run over two unread
emails from the same domain whose first move request fails issues two move
requests for the same card `c1` — a failed move leaves the card in the
candidate set, so the claimed at-most-one mutation attempt per card does
not hold. -/
theorem claim6_counterexample :
    runScript1 cfgA [cardAcme] [(msgAcme, envFailMove), (msgAcme2, envFailMove)] =
      .ok { trelloCards := [cardAcme], movedCardsLog := [], cardsFailed := 2,
            readAttempts := [],
            moveAttempts := [⟨"c1", "contact-list", false⟩, ⟨"c1", "contact-list", false⟩],
            aiCalls := 2 } ∧
    ¬ (([(⟨"c1", "contact-list", false⟩ : MoveAttempt),
        ⟨"c1", "contact-list", false⟩].map MoveAttempt.cardId).Nodup) := by
  refine ⟨by decide, by decide⟩

/-- Claim C6 as amended: within one run, a *successful* move attempt on a
card is never followed by any further move attempt on that card; only after
a failed attempt (which leaves the card in the candidate set) can a later
email trigger another attempt on the same card. -/
theorem claim6_amended (cfg : Config) (yourEmailAddress : String)
    (cards : List TrelloCard) (emails : List (EmailMessage × EmailEnv)) :
    List.Pairwise attemptOrd
      (runEmails cfg yourEmailAddress (initState cards) emails).moveAttempts :=
  (runEmails_inv cfg yourEmailAddress cards emails).1

theorem claim6_witness :
    List.Pairwise attemptOrd (runEmails cfgA "me@x.com" (initState [cardAcme])
      [(msgAcme, envFailMove), (msgAcme2, envFailMove)]).moveAttempts :=
  claim6_amended cfgA "me@x.com" [cardAcme] [(msgAcme, envFailMove), (msgAcme2, envFailMove)]

/-- Claim C9, counterexample to the claim as stated: `MY_EMAIL` (the
recipient email, a required value named by the claim) is absent, yet the
Reply Classifier run does not abort early with an error — with no unread
messages it completes normally, matching the code, which only checks the
three Trello values before proceeding. -/
theorem claim9_counterexample :
    cfgNoEmail.MY_EMAIL = none ∧
    script1ConfigOk cfgNoEmail = true ∧
    runScript1 cfgNoEmail [cardAcme] [] = .ok (initState [cardAcme]) := by
  refine ⟨rfl, by decide, by decide⟩

/-- Claim C9 as amended: the values each script actually checks (Reply
Classifier: Trello key, token and source list id; Job Status Checker:
Trello key and token, Groq key, source and target list ids) do cause, when
any is absent or empty, an early abort before any card is fetched, matched
or moved, with an error and an attempted notification. -/
theorem claim9_config_abort (cfg : Config) (cards : List TrelloCard)
    (emails : List (EmailMessage × EmailEnv)) (cfg2 : Config2)
    (cards2 : List (TrelloCard × CardEnv))
    (h1 : script1ConfigOk cfg = false) (h2 : script2ConfigOk cfg2 = false) :
    runScript1 cfg cards emails = .configError ∧ runScript2 cfg2 cards2 = .configError := by
  constructor
  · unfold runScript1
    rw [if_pos h1]
  · unfold runScript2
    rw [if_pos h2]

theorem claim9_witness :
    runScript1 cfgMissing [cardAcme] [(msgAcme, envOkMove)] = .configError ∧
    runScript2 cfg2Missing [] = .configError :=
  claim9_config_abort cfgMissing [cardAcme] [(msgAcme, envOkMove)] cfg2Missing []
    (by decide) (by decide)
